import Mathlib

/-!
Verification development for the numeric-formatting core of `fluent-rs`
(`fluent-bundle/src/types/number.rs`), shallowly embedded in Lean 4.

Modelling choices:
* Rust `f64` values are embedded as `Float64`: an exact rational `num / den`
  for finite values, plus the special values `nan`, `inf`, `neginf`.  Every
  finite IEEE-754 double is an exact rational, so the model is a superset of
  the machine type; concrete inputs used below are always exact doubles.
* Rust's fixed-point rendering `format!("{number:.precision$}")` produces the
  decimal string nearest to the exact value with exactly `precision` digits
  after the point (ties to even); `render` implements exactly that on the
  rational value.  Special values render as `"NaN"`, `"inf"`, `"-inf"`,
  ignoring the precision, as in Rust.
* Strings are `List Char`; every string manipulated here is pure ASCII so
  Rust's byte indices (`str::find`, `str::len`) coincide with character
  indices.
* Panics (`expect`, `usize` subtraction overflow followed by the huge
  `"0".repeat`) are modelled as `Option.none`.
* The platform is 64-bit: `usizeSize = 8` models `std::mem::size_of::<usize>()`,
  and `usize` arithmetic saturates at `usizeMax = 2^64 - 1` where the source
  casts with `as`.
-/

/-- Size in bytes of the platform's `usize`; this development models the
64-bit platform, mirroring `std::mem::size_of::<usize>()`. -/
def usizeSize : Nat := 8

/-- `usize::MAX` on the modelled 64-bit platform. -/
def usizeMax : Nat := 2 ^ 64 - 1

/-- Exact model of Rust `f64`: finite values are the exact rational
`num / den`; the special values are explicit.  Finite IEEE doubles are a
subset of the rationals represented here. -/
inductive Float64 where
  | finite (num : Int) (den : Nat)
  | nan
  | inf
  | neginf
deriving DecidableEq

/-- Round `a / b` (with `a b : Nat`) to the nearest integer, ties to even:
the rounding used by Rust's float formatting on the exact value. -/
def roundHalfEven (a b : Nat) : Nat :=
  let q := a / b
  let r := a % b
  if 2 * r < b then q
  else if b < 2 * r then q + 1
  else if q % 2 = 0 then q else q + 1

/-- Decimal digits of `n`, most significant first, via explicit fuel
(`fuel > number of digits` suffices; callers pass `n + 1`). -/
def natDigitsAux : Nat → Nat → List Char
  | 0, _ => []
  | fuel + 1, n =>
    if n < 10 then [Nat.digitChar n]
    else natDigitsAux fuel (n / 10) ++ [Nat.digitChar (n % 10)]

/-- Decimal representation of `n` (so `natDigits 0 = "0"`). -/
def natDigits (n : Nat) : List Char := natDigitsAux (n + 1) n

/-- Exactly `p` decimal digits of the fraction numerator `n < 10^p`, most
significant first, left-padded with `'0'`. -/
def fracDigits : Nat → Nat → List Char
  | 0, _ => []
  | p + 1, n => fracDigits p (n / 10) ++ [Nat.digitChar (n % 10)]

/-- Fixed-point rendering of the nonnegative rational `a / b` with exactly
`p` digits after the decimal point (no point at all when `p = 0`),
rounding to nearest, ties to even. -/
def renderPosFixed (a b p : Nat) : List Char :=
  let n := roundHalfEven (a * 10 ^ p) b
  if p = 0 then natDigits n
  else natDigits (n / 10 ^ p) ++ '.' :: fracDigits p (n % 10 ^ p)

/-- Model of Rust `format!("{number:.precision$}")` for an `f64`. -/
def render (x : Float64) (p : Nat) : List Char :=
  match x with
  | .finite num den =>
    if num < 0 then '-' :: renderPosFixed num.natAbs den p
    else renderPosFixed num.natAbs den p
  | .nan => "NaN".toList
  | .inf => "inf".toList
  | .neginf => "-inf".toList

/-- Model of Rust `str::trim_end_matches(c)`: remove every trailing
occurrence of `c`. -/
def trimTrailing (c : Char) (l : List Char) : List Char :=
  (l.reverse.dropWhile (fun a => a == c)).reverse

/-- Model of Rust `str::find(c)` for a single `char` pattern: index of the
first occurrence. -/
def findChar (c : Char) : List Char → Option Nat
  | [] => none
  | a :: rest => if a == c then some 0 else (findChar c rest).map (· + 1)

/-- `FluentNumberStyle` (number.rs lines 11-16). -/
inductive FluentNumberStyle where
  | Decimal
  | Currency
  | Percent
deriving DecidableEq

/-- `Default for FluentNumberStyle` (number.rs lines 18-22). -/
def FluentNumberStyle.default : FluentNumberStyle := .Decimal

/-- `From<&str> for FluentNumberStyle` (number.rs lines 24-33). -/
def FluentNumberStyle.fromString (input : String) : FluentNumberStyle :=
  match input with
  | "decimal" => .Decimal
  | "currency" => .Currency
  | "percent" => .Percent
  | _ => FluentNumberStyle.default

/-- `FluentNumberCurrencyDisplayStyle` (number.rs lines 35-40). -/
inductive FluentNumberCurrencyDisplayStyle where
  | Symbol
  | Code
  | Name
deriving DecidableEq

/-- `Default for FluentNumberCurrencyDisplayStyle` (number.rs lines 42-46). -/
def FluentNumberCurrencyDisplayStyle.default : FluentNumberCurrencyDisplayStyle := .Symbol

/-- `From<&str> for FluentNumberCurrencyDisplayStyle` (number.rs lines 48-57). -/
def FluentNumberCurrencyDisplayStyle.fromString (input : String) :
    FluentNumberCurrencyDisplayStyle :=
  match input with
  | "symbol" => .Symbol
  | "code" => .Code
  | "name" => .Name
  | _ => FluentNumberCurrencyDisplayStyle.default

/-- `FluentNumberOptions` (number.rs lines 59-70). -/
structure FluentNumberOptions where
  style : FluentNumberStyle
  currency : Option String
  currency_display : FluentNumberCurrencyDisplayStyle
  use_grouping : Bool
  minimum_integer_digits : Option Nat
  minimum_fraction_digits : Option Nat
  maximum_fraction_digits : Option Nat
  minimum_significant_digits : Option Nat
  maximum_significant_digits : Option Nat
deriving DecidableEq

/-- `Default for FluentNumberOptions` (number.rs lines 72-86). -/
def FluentNumberOptions.default : FluentNumberOptions where
  style := FluentNumberStyle.default
  currency := none
  currency_display := FluentNumberCurrencyDisplayStyle.default
  use_grouping := true
  minimum_integer_digits := none
  minimum_fraction_digits := none
  maximum_fraction_digits := none
  minimum_significant_digits := none
  maximum_significant_digits := none

/-- `FluentNumber` (number.rs lines 122-126). -/
structure FluentNumber where
  value : Float64
  options : FluentNumberOptions
deriving DecidableEq

/-- `impl From<FluentNumber> for usize` generated by `from_num!`
(number.rs lines 201-205): Rust `as` cast from `f64` to `usize`, i.e.
truncation toward zero saturating into `[0, usize::MAX]`, with NaN mapped
to zero. -/
def f64ToUsize : Float64 → Nat
  | .nan => 0
  | .inf => usizeMax
  | .neginf => 0
  | .finite num den => if num < 0 then 0 else min (num.natAbs / den) usizeMax

/-- The cast `FluentNumber → usize` used by `merge` via `n.into()`:
`input.value as usize`, ignoring the options. -/
def fluentNumberToUsize (n : FluentNumber) : Nat := f64ToUsize n.value

/-- Modelled from the spec: the host system's polymorphic tagged value type
(`FluentValue`), whose definition is outside the provided sources.  The spec
requires "at minimum a `Number(NumericValue)` and a `String(text)` variant";
`other` stands for the remaining variants, none of which `merge` inspects. -/
inductive FluentValue where
  | String (s : String)
  | Number (n : FluentNumber)
  | other
deriving DecidableEq

/-- One iteration of the `for (key, value) in opts` loop body of
`FluentNumberOptions::merge` (number.rs lines 90-118). -/
def mergeArg (opts : FluentNumberOptions) (key : String) (value : FluentValue) :
    FluentNumberOptions :=
  match key, value with
  | "style", .String n => { opts with style := FluentNumberStyle.fromString n }
  | "currency", .String n => { opts with currency := some n }
  | "currencyDisplay", .String n =>
    { opts with currency_display := FluentNumberCurrencyDisplayStyle.fromString n }
  | "minimumIntegerDigits", .Number n =>
    { opts with minimum_integer_digits := some (fluentNumberToUsize n) }
  | "minimumFractionDigits", .Number n =>
    { opts with minimum_fraction_digits := some (fluentNumberToUsize n) }
  | "maximumFractionDigits", .Number n =>
    { opts with maximum_fraction_digits := some (fluentNumberToUsize n) }
  | "minimumSignificantDigits", .Number n =>
    { opts with minimum_significant_digits := some (fluentNumberToUsize n) }
  | "maximumSignificantDigits", .Number n =>
    { opts with maximum_significant_digits := some (fluentNumberToUsize n) }
  | _, _ => opts

/-- `FluentNumberOptions::merge` (number.rs lines 89-119): fold the loop
body over the argument pairs.  `FluentArgs` is embedded as an association
list of `(key, value)` pairs with unique keys. -/
def FluentNumberOptions.merge (opts : FluentNumberOptions)
    (args : List (String × FluentValue)) : FluentNumberOptions :=
  args.foldl (fun o kv => mergeArg o kv.1 kv.2) opts

/-- The working precision of `as_string` (number.rs lines 134-139):
`maximum_fraction_digits` defaulting to 15, clamped to 9 on platforms whose
`usize` is narrower than 8 bytes. -/
def effectiveMaxFrac (o : FluentNumberOptions) : Nat :=
  let maxFracDigits := o.maximum_fraction_digits.getD 15
  if usizeSize < 8 then min maxFracDigits 9 else maxFracDigits

/-- The `with_max_precision` string of `as_string` (number.rs lines 141-145). -/
def withMaxPrecision (x : FluentNumber) : List Char :=
  render x.value (effectiveMaxFrac x.options)

/-- `FluentNumber::as_string` (number.rs lines 133-159).  `none` models a
panic: either the `expect` on the decimal-point lookup failing, or the
`usize` underflow of `minfd - frac_num` (a panic in debug builds; in release
builds it wraps and the subsequent `"0".repeat(zeros_needed)` aborts on
capacity overflow). -/
def FluentNumber.as_string (x : FluentNumber) : Option (List Char) :=
  let val := trimTrailing '0' (withMaxPrecision x)
  match x.options.minimum_fraction_digits with
  | none => some (trimTrailing '.' val)
  | some minfd =>
    match findChar '.' val with
    | none => none
    | some pos =>
      let fracNum := val.length - pos - 1
      if minfd < fracNum then none
      else
        let zerosNeeded := minfd - fracNum
        let val2 := if zerosNeeded > 0 then val ++ List.replicate zerosNeeded '0' else val
        some (trimTrailing '.' val2)

/-- Base-2 logarithm (floor) via explicit fuel; `log2Aux n n` is correct for
every `n` since the recursion depth is at most `log2 n ≤ n`. -/
def log2Aux : Nat → Nat → Nat
  | 0, _ => 0
  | fuel + 1, n => if 2 ≤ n then log2Aux fuel (n / 2) + 1 else 0

/-- `natLog2 n = ⌊log2 n⌋` for `n ≥ 1` (and `0` for `n = 0`). -/
def natLog2 (n : Nat) : Nat := log2Aux n n

/-- Modelled from the spec: correctly-rounded conversion of the positive
rational `a / b` to the nearest IEEE-754 double (round to nearest, ties to
even), the conversion performed by the standard library's `f64` parsing,
which is outside the provided sources.  Subnormals round at the fixed scale
`2^-1074`; values at or above `2^1024` after rounding become `inf`. -/
def roundPosToF64 (a b : Nat) : Float64 :=
  let e : Int := (natLog2 (a * 2 ^ 1100 / b) : Int) - 1100
  let eEff : Int := max e (-1022)
  let shift : Int := 52 - eEff
  let m := if 0 ≤ shift then roundHalfEven (a * 2 ^ shift.toNat) b
           else roundHalfEven a (b * 2 ^ (-shift).toNat)
  let overflow := if 0 ≤ shift then 2 ^ (1024 + shift.toNat) ≤ m
                  else 2 ^ 1024 ≤ m * 2 ^ (-shift).toNat
  if overflow then .inf
  else if 0 ≤ shift then .finite (m : Int) (2 ^ shift.toNat)
  else .finite ((m * 2 ^ (-shift).toNat : Nat) : Int) 1

/-- Split a character list at its first `'.'`; the second component is
`none` when there is no `'.'`. -/
def splitAtDot : List Char → List Char × Option (List Char)
  | [] => ([], none)
  | c :: rest =>
    if c == '.' then ([], some rest)
    else
      let p := splitAtDot rest
      (c :: p.1, p.2)

/-- Numeric value of a list of decimal digit characters. -/
def digitsToNat (l : List Char) : Nat :=
  l.foldl (fun a c => 10 * a + (c.toNat - '0'.toNat)) 0

/-- Modelled from the spec: `f64::from_str` restricted to plain decimal
numerals (`[+-]? digits [. digits]?`, at least one digit), which the spec
describes as "parse as a 64-bit float; fails with a parse error when the
text is not a valid decimal numeral".  The standard library parser itself is
outside the provided sources.  On success the result is the nearest double
to the exact decimal value. -/
def parseF64 (input : List Char) : Option Float64 :=
  let signed : Bool × List Char :=
    match input with
    | '-' :: r => (true, r)
    | '+' :: r => (false, r)
    | r => (false, r)
  let neg := signed.1
  let parts := splitAtDot signed.2
  let ip := parts.1
  let fp := (parts.2).getD []
  if ip.all Char.isDigit && fp.all Char.isDigit && !(ip.isEmpty && fp.isEmpty) then
    let a := digitsToNat (ip ++ fp)
    let b := 10 ^ fp.length
    if a = 0 then some (.finite 0 1)
    else
      match roundPosToF64 a b with
      | .inf => some (if neg then .neginf else .inf)
      | .finite n d => some (if neg then .finite (-n) d else .finite n d)
      | x => some x
  else none

/-- `FromStr for FluentNumber` (number.rs lines 162-175): parse the text as
an `f64`, then set `minimum_fraction_digits` to the digit count after the
first `'.'` of the original input. -/
def FluentNumber.from_str (input : List Char) : Option FluentNumber :=
  (parseF64 input).map fun n =>
    let mfd := (findChar '.' input).map fun pos => input.length - pos - 1
    { value := n
      options := { FluentNumberOptions.default with minimum_fraction_digits := mfd } }

/-- The CLDR plural operand tuple (`intl_pluralrules::operands::PluralOperands`).
`n` is the absolute numeric value, kept exact as a rational rather than the
crate's `f64`. -/
structure PluralOperands where
  n : ℚ
  i : Nat
  v : Nat
  w : Nat
  f : Nat
  t : Nat
deriving DecidableEq

/-- Modelled from the spec: the external plural-rules engine's decomposition
of a decimal string into CLDR operands (`TryFrom<&str> for PluralOperands`
of the `intl_pluralrules` crate, outside the provided sources), per the
spec's operand description: integer part `i`, visible fraction-digit count
`v`, fraction value with trailing zeros `f`, without trailing zeros `t`,
`w` the trimmed visible-fraction count, and `n` the absolute value.
Malformed input (anything but `[-]? digits [. digits]?`) fails. -/
def operandsFromChars (l : List Char) : Option PluralOperands :=
  let body : List Char := match l with
    | '-' :: rest => rest
    | other => other
  let parts := splitAtDot body
  let ip := parts.1
  if !ip.all Char.isDigit || ip.isEmpty then none
  else
    let i := digitsToNat ip
    match parts.2 with
    | none => some { n := mkRat i 1, i := i, v := 0, w := 0, f := 0, t := 0 }
    | some fracChars =>
      if !fracChars.all Char.isDigit || fracChars.isEmpty then none
      else
        let f := digitsToNat fracChars
        let v := fracChars.length
        let trimmed := trimTrailing '0' fracChars
        some { n := mkRat (i * 10 ^ v + f) (10 ^ v)
               i := i, v := v, w := trimmed.length, f := f, t := digitsToNat trimmed }

/-- `impl From<&FluentNumber> for PluralOperands` (number.rs lines 227-243):
decompose the canonical string, then reconcile against
`minimum_fraction_digits`.  `none` models the `expect` panic when the
decomposition fails. -/
def pluralOperands (input : FluentNumber) : Option PluralOperands :=
  match (input.as_string).bind operandsFromChars with
  | none => none
  | some operands =>
    match input.options.minimum_fraction_digits with
    | some mfd =>
      if operands.v < mfd then
        some { operands with f := operands.f * 10 ^ (mfd - operands.v), v := mfd }
      else some operands
    | none => some operands

/-- The argument pairs the `merge` loop body recognizes: one of the three
text-typed option names with a text value, or one of the five digit-count
option names with a numeric value. -/
def recognizedArg (key : String) (value : FluentValue) : Bool :=
  match value with
  | .String _ => key == "style" || key == "currency" || key == "currencyDisplay"
  | .Number _ => key == "minimumIntegerDigits" || key == "minimumFractionDigits"
      || key == "maximumFractionDigits" || key == "minimumSignificantDigits"
      || key == "maximumSignificantDigits"
  | .other => false

/-- Sample input for padding: the value `0.5` with `minimum_fraction_digits = 2`. -/
def padSample : FluentNumber :=
  ⟨.finite 1 2, { FluentNumberOptions.default with minimum_fraction_digits := some 2 }⟩

/-- Sample input: the value `2` with `maximum_fraction_digits = 0`. -/
def maxZeroSample : FluentNumber :=
  ⟨.finite 2 1, { FluentNumberOptions.default with maximum_fraction_digits := some 0 }⟩

/-- Sample input: the value `20` with `maximum_fraction_digits = 0`. -/
def stripSample : FluentNumber :=
  ⟨.finite 20 1, { FluentNumberOptions.default with maximum_fraction_digits := some 0 }⟩

/-- Sample input for operand derivation: the value `1` with
`minimum_fraction_digits = 2`. -/
def operandSample : FluentNumber :=
  ⟨.finite 1 1, { FluentNumberOptions.default with minimum_fraction_digits := some 2 }⟩

/-- The operand tuple of `operandSample`: `1.00`, so `v = 2` and `f = 0`. -/
def operandSampleOps : PluralOperands :=
  { n := 1, i := 1, v := 2, w := 0, f := 0, t := 0 }

/-! ### Helper lemmas -/

theorem mem_of_mem_dropWhile {p : Char → Bool} {a : Char} :
    ∀ {l : List Char}, a ∈ l.dropWhile p → a ∈ l := by
  intro l
  induction l with
  | nil => intro h; simp at h
  | cons x xs ih =>
    intro h
    by_cases hp : p x
    · rw [List.dropWhile_cons_of_pos hp] at h
      exact List.mem_cons_of_mem _ (ih h)
    · rw [List.dropWhile_cons_of_neg hp] at h
      exact h

theorem mem_of_mem_trimTrailing {c a : Char} {l : List Char}
    (h : a ∈ trimTrailing c l) : a ∈ l := by
  unfold trimTrailing at h
  rw [List.mem_reverse] at h
  exact List.mem_reverse.mp (mem_of_mem_dropWhile h)

theorem digitChar_ne_dot {k : Nat} (h : k < 10) : Nat.digitChar k ≠ '.' := by
  interval_cases k <;> decide

theorem dot_not_mem_natDigitsAux (fuel n : Nat) : '.' ∉ natDigitsAux fuel n := by
  induction fuel generalizing n with
  | zero => simp [natDigitsAux]
  | succ f ih =>
    simp only [natDigitsAux]
    split
    · intro h
      rw [List.mem_singleton] at h
      exact digitChar_ne_dot (by omega) h.symm
    · intro h
      rcases List.mem_append.mp h with h | h
      · exact ih _ h
      · rw [List.mem_singleton] at h
        exact digitChar_ne_dot (Nat.mod_lt _ (by omega)) h.symm

theorem dot_not_mem_natDigits (n : Nat) : '.' ∉ natDigits n :=
  dot_not_mem_natDigitsAux _ _

theorem dot_not_mem_renderPosFixed_zero (a b : Nat) : '.' ∉ renderPosFixed a b 0 := by
  intro h
  exact dot_not_mem_natDigits _ (by simpa [renderPosFixed] using h)

theorem dot_not_mem_render_zero (v : Float64) : '.' ∉ render v 0 := by
  cases v with
  | finite num den =>
    simp only [render]
    split
    · intro h
      rcases List.mem_cons.mp h with h | h
      · exact absurd h (by decide)
      · exact dot_not_mem_renderPosFixed_zero _ _ h
    · exact dot_not_mem_renderPosFixed_zero _ _
  | nan => decide
  | inf => decide
  | neginf => decide

theorem findChar_eq_none {c : Char} {l : List Char} (h : c ∉ l) :
    findChar c l = none := by
  induction l with
  | nil => rfl
  | cons x xs ih =>
    simp only [findChar]
    rw [if_neg, ih (fun hm => h (List.mem_cons_of_mem _ hm))]
    · rfl
    · simp only [beq_iff_eq]
      intro e
      exact h (e ▸ List.mem_cons_self _ _)

theorem findChar_append {c : Char} {l l' : List Char} {i : Nat}
    (h : findChar c l = some i) : findChar c (l ++ l') = some i := by
  induction l generalizing i with
  | nil => simp [findChar] at h
  | cons x xs ih =>
    simp only [findChar, List.cons_append] at h ⊢
    by_cases hx : (x == c) = true
    · rw [if_pos hx] at h ⊢; exact h
    · rw [if_neg hx] at h ⊢
      rcases Option.map_eq_some'.mp h with ⟨j, hj, rfl⟩
      have h2 : findChar c (xs ++ l') = some j := ih hj
      simp only [List.append_eq] at h2 ⊢
      rw [h2]
      rfl

theorem findChar_lt_length {c : Char} {l : List Char} {i : Nat}
    (h : findChar c l = some i) : i < l.length := by
  induction l generalizing i with
  | nil => simp [findChar] at h
  | cons x xs ih =>
    simp only [findChar] at h
    by_cases hx : (x == c) = true
    · rw [if_pos hx] at h
      cases h
      simp
    · rw [if_neg hx] at h
      rcases Option.map_eq_some'.mp h with ⟨j, hj, rfl⟩
      have := ih hj
      simp only [List.length_cons]
      omega

theorem trimTrailing_eq_of_not_mem {c : Char} {l : List Char} (h : c ∉ l) :
    trimTrailing c l = l := by
  unfold trimTrailing
  have hd : l.reverse.dropWhile (fun a => a == c) = l.reverse := by
    cases hr : l.reverse with
    | nil => rfl
    | cons a as =>
      have ha : a ∈ l := List.mem_reverse.mp (hr ▸ List.mem_cons_self _ _)
      have hne : (a == c) = false := by
        simp only [beq_eq_false_iff_ne]
        intro e
        exact h (e ▸ ha)
      rw [List.dropWhile_cons_of_neg (by rw [hne]; decide)]
  rw [hd, List.reverse_reverse]

theorem trimTrailing_dot_append_zeros (l : List Char) (k : Nat) :
    trimTrailing '.' (l ++ List.replicate (k + 1) '0') =
      l ++ List.replicate (k + 1) '0' := by
  have hd : (l ++ List.replicate (k + 1) '0').reverse.dropWhile (fun a => a == '.') =
      (l ++ List.replicate (k + 1) '0').reverse := by
    rw [List.reverse_append, List.reverse_replicate, List.replicate_succ,
      List.cons_append, List.dropWhile_cons_of_neg (by decide)]
  unfold trimTrailing
  rw [hd, List.reverse_reverse]

/-! ### Claim theorems -/

/-- C1: the claim states that `as_string` clamps the needed-zero count
`minimum_fraction_digits - frac_num` to zero and returns normally whenever
the trailing-zero-trimmed rendering already has at least that many fraction
digits.  The code does not clamp: for the value `0.25` with
`minimum_fraction_digits = 1`, the trimmed rendering is `"0.25"` with two
fraction digits (so the claim's premise holds with `2 ≥ 1`), and the
`usize` subtraction `1 - 2` underflows, so `as_string` panics (modelled as
`none`) instead of returning normally. -/
theorem c1_no_clamp_underflow_panics :
    trimTrailing '0' (withMaxPrecision
        ⟨.finite 1 4, { FluentNumberOptions.default with minimum_fraction_digits := some 1 }⟩)
      = "0.25".toList
    ∧ FluentNumber.as_string
        ⟨.finite 1 4, { FluentNumberOptions.default with minimum_fraction_digits := some 1 }⟩
      = none := by
  constructor
  · decide
  · decide

/-- C2: the claim states that with `maximum_fraction_digits = 0` and
`minimum_fraction_digits` set, `as_string` skips the padding branch and
returns normally.  The code has no such guard: the `p = 0` rendering of the
value `1` is `"1"`, which contains no `'.'`, so the `expect` on the
decimal-point lookup panics (modelled as `none`). -/
theorem c2_zero_precision_expect_panics :
    FluentNumber.as_string
        ⟨.finite 1 1, { FluentNumberOptions.default with
          minimum_fraction_digits := some 2, maximum_fraction_digits := some 0 }⟩
      = none := by decide

/-- C3 counterexample: the claim lists `useGrouping` among the nine
recognized option names whose field `merge` updates on a tag match, but the
`merge` loop has no `useGrouping` arm: merging `{"useGrouping": v}` leaves
the options (default here, with `use_grouping = true`) unchanged whether
`v` carries the text tag or the numeric tag — the only two kinds the claim
assigns to recognized names — so the ninth listed name never triggers an
update. -/
theorem c3_useGrouping_never_updated :
    FluentNumberOptions.merge FluentNumberOptions.default
        [("useGrouping", .String "false")] = FluentNumberOptions.default
    ∧ FluentNumberOptions.merge FluentNumberOptions.default
        [("useGrouping", .Number ⟨.finite 0 1, FluentNumberOptions.default⟩)]
      = FluentNumberOptions.default := by
  exact ⟨rfl, rfl⟩

/-- C3 (amended): for every options record, `merge` of a single-pair
argument mapping updates the corresponding field for each of the eight
option names the code recognizes, when the value's runtime tag matches
(text for `style` / `currency` / `currencyDisplay`, numeric for the five
digit-count options), leaving every other field untouched (the right-hand
sides change exactly one field); `useGrouping` is not recognized and a
`useGrouping` pair of either tag updates nothing. -/
theorem c3_merge_updates_recognized_keys :
    ∀ (opts : FluentNumberOptions) (s : String) (n : FluentNumber),
      FluentNumberOptions.merge opts [("useGrouping", .String s)] = opts
      ∧ FluentNumberOptions.merge opts [("useGrouping", .Number n)] = opts
      ∧
      FluentNumberOptions.merge opts [("style", .String s)]
          = { opts with style := FluentNumberStyle.fromString s }
      ∧ FluentNumberOptions.merge opts [("currency", .String s)]
          = { opts with currency := some s }
      ∧ FluentNumberOptions.merge opts [("currencyDisplay", .String s)]
          = { opts with currency_display := FluentNumberCurrencyDisplayStyle.fromString s }
      ∧ FluentNumberOptions.merge opts [("minimumIntegerDigits", .Number n)]
          = { opts with minimum_integer_digits := some (fluentNumberToUsize n) }
      ∧ FluentNumberOptions.merge opts [("minimumFractionDigits", .Number n)]
          = { opts with minimum_fraction_digits := some (fluentNumberToUsize n) }
      ∧ FluentNumberOptions.merge opts [("maximumFractionDigits", .Number n)]
          = { opts with maximum_fraction_digits := some (fluentNumberToUsize n) }
      ∧ FluentNumberOptions.merge opts [("minimumSignificantDigits", .Number n)]
          = { opts with minimum_significant_digits := some (fluentNumberToUsize n) }
      ∧ FluentNumberOptions.merge opts [("maximumSignificantDigits", .Number n)]
          = { opts with maximum_significant_digits := some (fluentNumberToUsize n) } := by
  intro opts s n
  exact ⟨rfl, rfl, rfl, rfl, rfl, rfl, rfl, rfl, rfl, rfl⟩

/-- C7: `merge` never fails, and a pair whose key is unrecognized, or whose
key is recognized but whose value has the wrong runtime tag, leaves every
field of the options unchanged — the merged record equals the original, so
no field is mutated and no error is produced. -/
theorem c7_merge_ignores_unrecognized :
    ∀ (opts : FluentNumberOptions) (key : String) (value : FluentValue),
      recognizedArg key value = false →
      FluentNumberOptions.merge opts [(key, value)] = opts := by
  intro opts key value h
  show mergeArg opts key value = opts
  unfold mergeArg
  split
  all_goals first
    | rfl
    | simp [recognizedArg] at h

/-- C7 witness: merging `{"style": 5}` (a numeric value for the text-typed
`style` option) into the default options changes nothing. -/
theorem c7_merge_ignores_unrecognized_witness :
    recognizedArg "style" (.Number ⟨.finite 5 1, FluentNumberOptions.default⟩) = false
    ∧ FluentNumberOptions.merge FluentNumberOptions.default
        [("style", .Number ⟨.finite 5 1, FluentNumberOptions.default⟩)]
      = FluentNumberOptions.default :=
  ⟨by decide,
   c7_merge_ignores_unrecognized FluentNumberOptions.default "style"
     (.Number ⟨.finite 5 1, FluentNumberOptions.default⟩) (by decide)⟩

/-- C8: for every `FluentNumber` whose options set
`maximum_fraction_digits = 0`, any string `as_string` returns contains no
`'.'` character; in particular, formatting the value `1` with
`maximum_fraction_digits = 0` returns `"1"`. -/
theorem c8_max_zero_no_decimal_point :
    (∀ (x : FluentNumber) (s : List Char),
      x.options.maximum_fraction_digits = some 0 →
      x.as_string = some s → '.' ∉ s)
    ∧ FluentNumber.as_string
        ⟨.finite 1 1, { FluentNumberOptions.default with maximum_fraction_digits := some 0 }⟩
      = some ("1".toList) := by
  constructor
  · intro x s hmax h
    have hwp : withMaxPrecision x = render x.value 0 := by
      simp [withMaxPrecision, effectiveMaxFrac, hmax, usizeSize]
    have hval : '.' ∉ trimTrailing '0' (withMaxPrecision x) := fun hm =>
      dot_not_mem_render_zero x.value (hwp ▸ mem_of_mem_trimTrailing hm)
    cases hmfd : x.options.minimum_fraction_digits with
    | none =>
      simp only [FluentNumber.as_string, hmfd, Option.some.injEq] at h
      subst h
      exact fun hm => hval (mem_of_mem_trimTrailing hm)
    | some m =>
      simp only [FluentNumber.as_string, hmfd, findChar_eq_none hval] at h
      exact Option.noConfusion h
  · decide

/-- C9: with `maximum_fraction_digits = 0` the rendering contains no
decimal point, so when `minimum_fraction_digits` is also unset the
trailing-zero strip removes trailing `'0'` digits of the integer part
itself and `as_string` returns exactly the stripped rendering: the value
`10.0` formats as `"1"` and the value `0.0` formats as the empty string. -/
theorem c9_max_zero_strips_integer_zeros :
    (∀ (x : FluentNumber),
      x.options.maximum_fraction_digits = some 0 →
      '.' ∉ withMaxPrecision x
      ∧ (x.options.minimum_fraction_digits = none →
          x.as_string = some (trimTrailing '0' (withMaxPrecision x))))
    ∧ FluentNumber.as_string
        ⟨.finite 10 1, { FluentNumberOptions.default with maximum_fraction_digits := some 0 }⟩
      = some ("1".toList)
    ∧ FluentNumber.as_string
        ⟨.finite 0 1, { FluentNumberOptions.default with maximum_fraction_digits := some 0 }⟩
      = some [] := by
  refine ⟨?_, by decide, by decide⟩
  intro x hmax
  have hwp : withMaxPrecision x = render x.value 0 := by
    simp [withMaxPrecision, effectiveMaxFrac, hmax, usizeSize]
  have hdot : '.' ∉ withMaxPrecision x := fun hm =>
    dot_not_mem_render_zero x.value (hwp ▸ hm)
  refine ⟨hdot, fun hmfd => ?_⟩
  simp only [FluentNumber.as_string, hmfd]
  rw [trimTrailing_eq_of_not_mem (fun hm => hdot (mem_of_mem_trimTrailing hm))]

/-- C5: for every `FluentNumber` with `minimum_fraction_digits = m` whose
trailing-zero-trimmed rendering has a decimal point and fewer than `m`
fraction digits, `as_string` returns that rendering extended with enough
`'0'` characters (so all but the natural fraction digits are `'0'`), and
the result has exactly `m` fraction digits; in particular merging
`{"minimumFractionDigits": 2}` into default options and formatting the
value `5` yields `"5.00"`. -/
theorem c5_min_fraction_padding :
    (∀ (x : FluentNumber) (m pos : Nat),
      x.options.minimum_fraction_digits = some m →
      findChar '.' (trimTrailing '0' (withMaxPrecision x)) = some pos →
      (trimTrailing '0' (withMaxPrecision x)).length - pos - 1 < m →
      x.as_string = some (trimTrailing '0' (withMaxPrecision x) ++
          List.replicate (m - ((trimTrailing '0' (withMaxPrecision x)).length - pos - 1)) '0')
      ∧ findChar '.' (trimTrailing '0' (withMaxPrecision x) ++
          List.replicate (m - ((trimTrailing '0' (withMaxPrecision x)).length - pos - 1)) '0')
          = some pos
      ∧ (trimTrailing '0' (withMaxPrecision x) ++
          List.replicate (m - ((trimTrailing '0' (withMaxPrecision x)).length - pos - 1)) '0').length
          - pos - 1 = m)
    ∧ FluentNumber.as_string
        ⟨.finite 5 1,
          FluentNumberOptions.merge FluentNumberOptions.default
            [("minimumFractionDigits", .Number ⟨.finite 2 1, FluentNumberOptions.default⟩)]⟩
      = some ("5.00".toList) := by
  refine ⟨?_, by decide⟩
  intro x m pos hmfd hfind hlt
  have hposlen : pos < (trimTrailing '0' (withMaxPrecision x)).length :=
    findChar_lt_length hfind
  obtain ⟨j, hj⟩ : ∃ j, m - ((trimTrailing '0' (withMaxPrecision x)).length - pos - 1) = j + 1 := by
    refine ⟨m - ((trimTrailing '0' (withMaxPrecision x)).length - pos - 1) - 1, ?_⟩
    omega
  refine ⟨?_, findChar_append hfind, ?_⟩
  · simp only [FluentNumber.as_string, hmfd, hfind]
    rw [if_neg (show ¬(m < (trimTrailing '0' (withMaxPrecision x)).length - pos - 1) by omega),
      if_pos (show m - ((trimTrailing '0' (withMaxPrecision x)).length - pos - 1) > 0 by omega),
      hj, trimTrailing_dot_append_zeros]
  · rw [List.length_append, List.length_replicate]
    omega

/-- C5 witness: the general padding theorem applied to the value `0.5` with
`minimum_fraction_digits = 2`, whose trimmed rendering `"0.5"` has one
fraction digit, yielding `"0.50"`. -/
theorem c5_min_fraction_padding_witness :
    padSample.options.minimum_fraction_digits = some 2
    ∧ findChar '.' (trimTrailing '0' (withMaxPrecision padSample)) = some 1
    ∧ (trimTrailing '0' (withMaxPrecision padSample)).length - 1 - 1 < 2
    ∧ padSample.as_string = some (trimTrailing '0' (withMaxPrecision padSample) ++
        List.replicate (2 - ((trimTrailing '0' (withMaxPrecision padSample)).length - 1 - 1)) '0') :=
  ⟨rfl, by decide, by decide,
   (c5_min_fraction_padding.1 padSample 2 1 rfl (by decide) (by decide)).1⟩

/-- C8 witness: the general no-decimal-point theorem applied to the value
`2` with `maximum_fraction_digits = 0`, whose output is `"2"`. -/
theorem c8_max_zero_no_decimal_point_witness :
    FluentNumber.as_string maxZeroSample = some ("2".toList) ∧ '.' ∉ ("2".toList) :=
  ⟨by decide, c8_max_zero_no_decimal_point.1 maxZeroSample ("2".toList) rfl (by decide)⟩

/-- C9 witness: the general theorem applied to the value `20` with
`maximum_fraction_digits = 0`: no decimal point in the rendering, and the
result is the trailing-zero-stripped rendering (here `"2"`). -/
theorem c9_max_zero_strips_integer_zeros_witness :
    '.' ∉ withMaxPrecision stripSample
    ∧ FluentNumber.as_string stripSample
        = some (trimTrailing '0' (withMaxPrecision stripSample)) :=
  ⟨(c9_max_zero_strips_integer_zeros.1 stripSample rfl).1,
   (c9_max_zero_strips_integer_zeros.1 stripSample rfl).2 rfl⟩

set_option exponentiation.threshold 4000 in
set_option maxRecDepth 100000 in
/-- C4: parsing sets `minimum_fraction_digits` to the digit count after the
first `'.'` of the input (absent when there is no `'.'`), and the two
round-trip scenarios hold: `"3.140"` parses with
`minimum_fraction_digits = 3` and formats back to `"3.140"`, while `"10"`
parses with no `minimum_fraction_digits` and formats back to `"10"`. -/
theorem c4_parse_preserves_written_precision :
    (∀ (input : List Char) (x : FluentNumber),
      FluentNumber.from_str input = some x →
      x.options.minimum_fraction_digits
        = (findChar '.' input).map (fun pos => input.length - pos - 1))
    ∧ (FluentNumber.from_str ("3.140".toList)).map
        (fun x => x.options.minimum_fraction_digits) = some (some 3)
    ∧ (FluentNumber.from_str ("3.140".toList)).bind FluentNumber.as_string
        = some ("3.140".toList)
    ∧ (FluentNumber.from_str ("10".toList)).map
        (fun x => x.options.minimum_fraction_digits) = some none
    ∧ (FluentNumber.from_str ("10".toList)).bind FluentNumber.as_string
        = some ("10".toList) := by
  refine ⟨?_, by decide, by decide, by decide, by decide⟩
  intro input x h
  unfold FluentNumber.from_str at h
  cases hp : parseF64 input with
  | none => rw [hp] at h; exact Option.noConfusion h
  | some v =>
    rw [hp] at h
    simp only [Option.map_some', Option.some.injEq] at h
    rw [← h]

/-- C4 witness: the general conjunct applied to the input `"0"`, which
parses successfully and has no decimal point. -/
theorem c4_parse_preserves_written_precision_witness :
    FluentNumber.from_str ("0".toList) = some ⟨.finite 0 1, FluentNumberOptions.default⟩
    ∧ (FluentNumberOptions.default).minimum_fraction_digits
        = (findChar '.' ("0".toList)).map (fun pos => ("0".toList).length - pos - 1) :=
  ⟨by decide,
   c4_parse_preserves_written_precision.1 ("0".toList)
     ⟨.finite 0 1, FluentNumberOptions.default⟩ (by decide)⟩

/-- C6: deriving the plural operands decomposes the canonical string from
`as_string`; when `minimum_fraction_digits = m` the result is the
decomposition with `f` scaled by `10 ^ (m - v)` and `v := m` exactly when
`m` exceeds the derived `v` (otherwise unchanged); without the option the
decomposition is returned as is; no other option affects the result beyond
its effect on the canonical string; and the value `1` with
`minimum_fraction_digits = 2` yields the tuple for `"1.00"`: `v = 2` and
`f = 0` (representing `"00"`). -/
theorem c6_operand_reconciliation :
    (∀ (x : FluentNumber) (ops : PluralOperands) (m : Nat),
      (x.as_string).bind operandsFromChars = some ops →
      x.options.minimum_fraction_digits = some m →
      pluralOperands x = some (if ops.v < m then
          { ops with f := ops.f * 10 ^ (m - ops.v), v := m } else ops))
    ∧ (∀ (x : FluentNumber) (ops : PluralOperands),
      (x.as_string).bind operandsFromChars = some ops →
      x.options.minimum_fraction_digits = none →
      pluralOperands x = some ops)
    ∧ (∀ (x y : FluentNumber),
      x.as_string = y.as_string →
      x.options.minimum_fraction_digits = y.options.minimum_fraction_digits →
      pluralOperands x = pluralOperands y)
    ∧ pluralOperands operandSample = some operandSampleOps := by
  refine ⟨?_, ?_, ?_, by decide⟩
  · intro x ops m hbind hmfd
    simp only [pluralOperands, hbind, hmfd]
    by_cases hv : ops.v < m
    · rw [if_pos hv, if_pos hv]
    · rw [if_neg hv, if_neg hv]
  · intro x ops hbind hmfd
    simp only [pluralOperands, hbind, hmfd]
  · intro x y hs hm
    simp only [pluralOperands, hs, hm]

/-- C6 witness: the reconciliation conjunct applied to the value `1` with
`minimum_fraction_digits = 2`; the decomposition of `"1.00"` already has
`v = 2`, so the operands are returned unscaled. -/
theorem c6_operand_reconciliation_witness :
    (operandSample.as_string).bind operandsFromChars = some operandSampleOps
    ∧ operandSample.options.minimum_fraction_digits = some 2
    ∧ pluralOperands operandSample = some (if operandSampleOps.v < 2 then
        { operandSampleOps with
            f := operandSampleOps.f * 10 ^ (2 - operandSampleOps.v), v := 2 }
        else operandSampleOps) :=
  ⟨by decide, rfl, c6_operand_reconciliation.1 operandSample operandSampleOps 2 (by decide) rfl⟩

/-- C10: `merge` stores a digit-count option from a numeric argument as the
Rust `as` cast of the `f64` value to `usize` — the saturating truncation:
a nonnegative finite value stores its integer part (floor) saturated at
`usize::MAX`, a negative value stores `0`, and NaN stores `0`; no error is
possible. -/
theorem c10_digit_count_saturating_truncation :
    (∀ (opts : FluentNumberOptions) (n : FluentNumber),
      FluentNumberOptions.merge opts [("minimumFractionDigits", .Number n)]
        = { opts with minimum_fraction_digits := some (fluentNumberToUsize n) })
    ∧ (∀ (num : Int) (den : Nat) (o : FluentNumberOptions), 0 ≤ num →
      fluentNumberToUsize ⟨.finite num den, o⟩
        = min (⌊((num.natAbs : ℚ) / (den : ℚ))⌋₊) usizeMax)
    ∧ (∀ (num : Int) (den : Nat) (o : FluentNumberOptions), num < 0 →
      fluentNumberToUsize ⟨.finite num den, o⟩ = 0)
    ∧ (∀ (o : FluentNumberOptions), fluentNumberToUsize ⟨.nan, o⟩ = 0) := by
  refine ⟨fun opts n => rfl, ?_, ?_, fun o => rfl⟩
  · intro num den o h
    simp only [fluentNumberToUsize, f64ToUsize]
    rw [if_neg (by omega), Nat.floor_div_eq_div]
  · intro num den o h
    simp only [fluentNumberToUsize, f64ToUsize]
    rw [if_pos h]

/-- C10 witness: the nonnegative conjunct applied to the value `3.5`
(`7 / 2`), which stores `⌊3.5⌋ = 3`. -/
theorem c10_digit_count_saturating_truncation_witness :
    (0 : Int) ≤ 7
    ∧ fluentNumberToUsize ⟨.finite 7 2, FluentNumberOptions.default⟩
        = min (⌊(((7 : Int).natAbs : ℚ) / ((2 : Nat) : ℚ))⌋₊) usizeMax :=
  ⟨by decide,
   c10_digit_count_saturating_truncation.2.1 7 2 FluentNumberOptions.default (by decide)⟩
